import Mathlib

/-!
# Three single-file Express/Mongoose applications

A shallow embedding of the HTTP route handlers of

* `task1_allInOne.js` (inventory catalog, collection `Product`),
* `task2_allInOne.js` (project/task tracker, collection `Project` with embedded tasks),
* `task3_allInOne.js` (storefront, collection `Product`, client-side cart).

A handler is a function from the collection and the request to the response and
the collection afterwards.  The document store is the list of its documents in
storage order.  The `try { ... } catch { res.status(500) ... }` of every handler
is the final `match` on an `Except` computation: whatever the body throws is
answered 500.
-/

set_option autoImplicit false

/-! ## JavaScript values and Mongoose schema casts -/

namespace Js

/-- A member of a parsed JSON request body, restricted to the JSON scalars;
`undefined` is what destructuring yields for an absent member. -/
inductive JsVal where
  | undefined
  | null
  | bool (b : Bool)
  | num (q : ℚ)
  | str (s : String)
  deriving DecidableEq, Repr

/-- The parsed JSON object `req.body`: member name to value. -/
abbrev ReqBody := String → JsVal

/-- The body with the listed members (first occurrence of a name). -/
def ofFields (l : List (String × JsVal)) : ReqBody :=
  fun k => (l.lookup k).getD JsVal.undefined

/-- JavaScript truthiness, the meaning of `!v` being false. -/
def truthy : JsVal → Bool
  | .undefined => false
  | .null => false
  | .bool b => b
  | .num q => decide (q ≠ 0)
  | .str s => decide (s ≠ "")

/-- The member is absent, null or the empty string. -/
def missing (v : JsVal) : Prop :=
  v = .undefined ∨ v = .null ∨ v = .str ""

/-- The loose comparison `v == null`. -/
def looseNull : JsVal → Bool
  | .undefined => true
  | .null => true
  | _ => false

/-- A MongoDB `ObjectId`. -/
abbrev ObjectId := Nat

/-- A route parameter such as `req.params.id`, read as Mongoose reads it when it
casts the string to an `ObjectId`: either it is the text of an id, or it is
malformed and the cast throws. -/
inductive RouteId where
  | valid (id : ObjectId)
  | malformed
  deriving DecidableEq, Repr

/-- The route parameter is the text of the id `id`; a malformed parameter
matches no id. -/
def RouteId.matches (r : RouteId) (id : ObjectId) : Prop :=
  r = .valid id

/-- What a handler body can throw. -/
inductive JsError where
  | castError
  | validationError
  | typeError
  deriving DecidableEq, Repr

/-- The value of a `String` schema path.  Mongoose casts with `value.toString()`;
the rendering of a number or boolean is kept symbolically. -/
inductive StrVal where
  | lit (s : String)
  | ofNum (q : ℚ)
  | ofBool (b : Bool)
  deriving DecidableEq, Repr

/-- Whether the string has length zero (renderings of numbers and booleans never
have). -/
def StrVal.isEmpty : StrVal → Bool
  | .lit s => decide (s = "")
  | _ => false

/-- Mongoose `castString` on a scalar: null and undefined stay unset. -/
def castString : JsVal → Option StrVal
  | .undefined => none
  | .null => none
  | .bool b => some (.ofBool b)
  | .num q => some (.ofNum q)
  | .str s => some (.lit s)

/-- Mongoose `castNumber` on a scalar.  `toNumber` is JavaScript `Number(s)` on
a string, `none` standing for `NaN`, which the cast rejects. -/
def castNumber (toNumber : String → Option ℚ) : JsVal → Except JsError (Option ℚ)
  | .undefined => .ok none
  | .null => .ok none
  | .bool b => .ok (some (if b then 1 else 0))
  | .num q => .ok (some q)
  | .str s =>
    if s = "" then .ok none
    else match toNumber s with
      | some q => .ok (some q)
      | none => .error .castError

/-- Mongoose `castBoolean`: the sets `convertToTrue` and `convertToFalse`, null
and undefined left unset, everything else a cast error. -/
def castBoolean : JsVal → Except JsError (Option Bool)
  | .undefined => .ok none
  | .null => .ok none
  | .bool b => .ok (some b)
  | .num q => if q = 1 then .ok (some true) else if q = 0 then .ok (some false)
      else .error .castError
  | .str s =>
    if s = "true" ∨ s = "1" ∨ s = "yes" then .ok (some true)
    else if s = "false" ∨ s = "0" ∨ s = "no" then .ok (some false)
    else .error .castError

/-- An HTTP response: status code and JSON body. -/
structure Response (β : Type) where
  status : Nat
  body : β
  deriving DecidableEq, Repr

end Js

/-! ## task1: inventory catalog -/

namespace Task1
open Js

/-- A stored document of the `Product` model (all three paths `required`). -/
structure Product where
  _id : ObjectId
  name : StrVal
  price : ℚ
  image : StrVal
  deriving DecidableEq, Repr

/-- JSON bodies the task1 API answers with. -/
inductive Json where
  | message (m : String)
  | product (p : Product)
  | products (ps : List Product)
  deriving DecidableEq, Repr

/-- `new Product({ name, price, image })` followed by the validation that
`save()` runs: each value is cast to its path type, and a `required` path must
end up with a value (a non-empty one for strings). -/
def newProduct (toNumber : String → Option ℚ) (newId : ObjectId)
    (name price image : JsVal) : Except JsError Product :=
  match castString name, castNumber toNumber price, castString image with
  | some n, .ok (some p), some i =>
    if n.isEmpty || i.isEmpty then .error .validationError
    else .ok { _id := newId, name := n, price := p, image := i }
  | _, .error e, _ => .error e
  | _, _, _ => .error .validationError

/-- `Product.findByIdAndDelete(id)`: removes the first document with that id, if
any; a malformed id makes the query cast throw. -/
def findByIdAndDelete (db : List Product) : RouteId → Except JsError (List Product)
  | .valid id => .ok (db.eraseP fun p => decide (p._id = id))
  | .malformed => .error .castError

/-- `app.get('/api/products')`. -/
def getProducts (db : List Product) : Response Json :=
  { status := 200, body := .products db }

/-- `app.post('/api/products')`; `newId` is the id `new Product` generates. -/
def postProducts (toNumber : String → Option ℚ) (db : List Product) (newId : ObjectId)
    (body : ReqBody) : Response Json × List Product :=
  let name := body "name"
  let price := body "price"
  let image := body "image"
  if !truthy name || !truthy price || !truthy image then
    ({ status := 400, body := .message "Missing fields" }, db)
  else
    match newProduct toNumber newId name price image with
    | .ok product => ({ status := 201, body := .product product }, db ++ [product])
    | .error _ => ({ status := 500, body := .message "Failed to add product" }, db)

/-- `app.delete('/api/products/:id')`. -/
def deleteProduct (db : List Product) (id : RouteId) : Response Json × List Product :=
  match findByIdAndDelete db id with
  | .ok db1 => ({ status := 200, body := .message "Deleted" }, db1)
  | .error _ => ({ status := 500, body := .message "Failed to delete product" }, db)

/-- A request to the task1 API. -/
inductive Req where
  | get
  | post (newId : ObjectId) (body : ReqBody)
  | delete (id : RouteId)

/-- One request served: the response and the collection afterwards. -/
def step (toNumber : String → Option ℚ) (db : List Product) : Req → Response Json × List Product
  | .get => (getProducts db, db)
  | .post newId body => postProducts toNumber db newId body
  | .delete id => deleteProduct db id

/-- The collection after serving the requests in order. -/
def run (toNumber : String → Option ℚ) (db : List Product) (reqs : List Req) : List Product :=
  reqs.foldl (fun d r => (step toNumber d r).2) db

end Task1

/-! ## task2: project and task tracker -/

namespace Task2
open Js

/-- An embedded document of `TaskSchema`; an unset path is `none`. -/
structure Task where
  _id : ObjectId
  title : Option StrVal
  completed : Option Bool
  deriving DecidableEq, Repr

/-- A stored document of the `Project` model. -/
structure Project where
  _id : ObjectId
  name : Option StrVal
  tasks : List Task
  deriving DecidableEq, Repr

/-- JSON bodies the task2 API answers with. -/
inductive Json where
  | message (m : String)
  | project (p : Project)
  | projects (ps : List Project)
  deriving DecidableEq, Repr

/-- `Project.findById(id)`: the first document with that id, `none` for the
JavaScript `null`; a malformed id makes the query cast throw. -/
def findById (db : List Project) : RouteId → Except JsError (Option Project)
  | .valid id => .ok (db.find? fun p => decide (p._id = id))
  | .malformed => .error .castError

/-- `Project.findByIdAndDelete(id)`. -/
def findByIdAndDelete (db : List Project) : RouteId → Except JsError (List Project)
  | .valid id => .ok (db.eraseP fun p => decide (p._id = id))
  | .malformed => .error .castError

/-- `project.save()` on a new document: it is inserted. -/
def insert (db : List Project) (project : Project) : Except JsError (List Project) :=
  .ok (db ++ [project])

/-- `project.save()` on a document obtained from `findById`: the stored document
with its id is replaced by the modified one. -/
def save : List Project → Project → List Project
  | [], _ => []
  | d :: ds, project => if d._id = project._id then project :: ds else d :: save ds project

/-- `project.tasks.id(taskId)`: the first embedded document with that id, `none`
for `null`; an id that does not cast matches nothing. -/
def tasksId (tasks : List Task) : RouteId → Option Task
  | .valid id => tasks.find? fun t => decide (t._id = id)
  | .malformed => none

/-- The assignment `task.completed = c` on the task `tasksId` found. -/
def setCompleted : List Task → ObjectId → Option Bool → List Task
  | [], _, _ => []
  | t :: ts, id, c =>
    if t._id = id then { t with completed := c } :: ts else t :: setCompleted ts id c

/-- The subdocument `remove()` of the Mongoose versions that have it (up to 6):
the parent array pulls the documents with its id. -/
def removeTask (tasks : List Task) (task : Task) : List Task :=
  tasks.filter fun t => decide (t._id ≠ task._id)

/-- `app.get('/api/projects')`. -/
def getProjects (db : List Project) : Response Json :=
  { status := 200, body := .projects db }

/-- `app.post('/api/projects')`; `newId` is the id `new Project` generates. -/
def postProjects (db : List Project) (newId : ObjectId) (body : ReqBody) :
    Response Json × List Project :=
  let name := body "name"
  if !truthy name then ({ status := 400, body := .message "Name required" }, db)
  else
    let project : Project := { _id := newId, name := castString name, tasks := [] }
    match insert db project with
    | .ok db1 => ({ status := 201, body := .project project }, db1)
    | .error _ => ({ status := 500, body := .message "Failed to create project" }, db)

/-- `app.delete('/api/projects/:id')`. -/
def deleteProject (db : List Project) (id : RouteId) : Response Json × List Project :=
  match findByIdAndDelete db id with
  | .ok db1 => ({ status := 200, body := .message "Deleted" }, db1)
  | .error _ => ({ status := 500, body := .message "Failed to delete project" }, db)

/-- `app.post('/api/projects/:id/tasks')`; `newId` is the id the pushed
subdocument gets. -/
def postTask (db : List Project) (id : RouteId) (newId : ObjectId) (body : ReqBody) :
    Response Json × List Project :=
  let title := body "title"
  if !truthy title then ({ status := 400, body := .message "Title required" }, db)
  else
    match findById db id with
    | .ok none => ({ status := 404, body := .message "Project not found" }, db)
    | .ok (some project) =>
      let project1 : Project :=
        { project with tasks := project.tasks ++
            [{ _id := newId, title := castString title, completed := some false }] }
      ({ status := 201, body := .project project1 }, save db project1)
    | .error _ => ({ status := 500, body := .message "Failed to add task" }, db)

/-- `app.delete('/api/projects/:projectId/tasks/:taskId')`.  The call
`project.tasks.id(taskId).remove()` dereferences the result of `id`, so a task
that is not there throws a `TypeError`.  `subdocRemove` tells whether the
installed Mongoose has the subdocument method `remove()` (it was dropped after
version 6); where it has not, the call throws for a task that is there as well. -/
def deleteTask (subdocRemove : Bool) (db : List Project) (projectId taskId : RouteId) :
    Response Json × List Project :=
  match findById db projectId with
  | .ok none => ({ status := 404, body := .message "Project not found" }, db)
  | .ok (some project) =>
    match tasksId project.tasks taskId with
    | some task =>
      if subdocRemove then
        ({ status := 200, body := .message "Task deleted" },
          save db { project with tasks := removeTask project.tasks task })
      else ({ status := 500, body := .message "Failed to delete task" }, db)
    | none => ({ status := 500, body := .message "Failed to delete task" }, db)
  | .error _ => ({ status := 500, body := .message "Failed to delete task" }, db)

/-- `app.patch('/api/projects/:projectId/tasks/:taskId')`.  A `completed` value
that does not cast to a boolean makes `project.save()` reject. -/
def patchTask (db : List Project) (projectId taskId : RouteId) (body : ReqBody) :
    Response Json × List Project :=
  let completed := body "completed"
  match findById db projectId with
  | .ok none => ({ status := 404, body := .message "Project not found" }, db)
  | .ok (some project) =>
    match tasksId project.tasks taskId with
    | none => ({ status := 404, body := .message "Task not found" }, db)
    | some task =>
      match castBoolean completed with
      | .ok c =>
        ({ status := 200, body := .message "Task updated" },
          save db { project with tasks := setCompleted project.tasks task._id c })
      | .error _ => ({ status := 500, body := .message "Failed to update task" }, db)
  | .error _ => ({ status := 500, body := .message "Failed to update task" }, db)

end Task2

/-! ## task3: storefront -/

namespace Task3
open Js

/-- A stored document of the `Product` model of task3 (no path is `required`). -/
structure Product where
  _id : ObjectId
  title : Option StrVal
  description : Option StrVal
  price : Option ℚ
  imageUrl : Option StrVal
  deriving DecidableEq, Repr

/-- JSON bodies the task3 API answers with. -/
inductive Json where
  | message (m : String)
  | product (p : Product)
  | products (ps : List Product)
  deriving DecidableEq, Repr

/-- `new Product({ title, description, price, imageUrl })` followed by the
validation that `save()` runs: only a failed cast is an error. -/
def newProduct (toNumber : String → Option ℚ) (newId : ObjectId)
    (title description price imageUrl : JsVal) : Except JsError Product :=
  match castNumber toNumber price with
  | .ok p =>
    .ok {
      _id := newId
      title := castString title
      description := castString description
      price := p
      imageUrl := castString imageUrl }
  | .error e => .error e

/-- `app.get('/api/products')`. -/
def getProducts (db : List Product) : Response Json :=
  { status := 200, body := .products db }

/-- `app.post('/api/products')`; `newId` is the id `new Product` generates. -/
def postProducts (toNumber : String → Option ℚ) (db : List Product) (newId : ObjectId)
    (body : ReqBody) : Response Json × List Product :=
  let title := body "title"
  let description := body "description"
  let price := body "price"
  let imageUrl := body "imageUrl"
  if !truthy title || !truthy description || looseNull price || !truthy imageUrl then
    ({ status := 400, body := .message "All fields required" }, db)
  else
    match newProduct toNumber newId title description price imageUrl with
    | .ok product => ({ status := 201, body := .product product }, db ++ [product])
    | .error _ => ({ status := 500, body := .message "Failed to add product" }, db)

/-- A request to the task3 API. -/
inductive Req where
  | get
  | post (newId : ObjectId) (body : ReqBody)

/-- One request served: the response and the collection afterwards. -/
def step (toNumber : String → Option ℚ) (db : List Product) : Req → Response Json × List Product
  | .get => (getProducts db, db)
  | .post newId body => postProducts toNumber db newId body

/-- The collection after serving the requests in order. -/
def run (toNumber : String → Option ℚ) (db : List Product) (reqs : List Req) : List Product :=
  reqs.foldl (fun d r => (step toNumber d r).2) db

/-! ### The cart of the task3 page script -/

/-- An entry `{ product, qty }` of the client-side `cart` array; `product` is a
product object as the page fetched it, `qty` a count, taken as an exact
integer. -/
structure CartItem where
  product : Product
  qty : Nat
  deriving DecidableEq, Repr

/-- The numeric value of `product.price` in an arithmetic expression (`null`
converts to 0). -/
def priceOf (product : Product) : ℚ :=
  product.price.getD 0

/-- `existing.qty++` on the entry `cart.find` returned, the first whose product
has the id. -/
def bumpQty : List CartItem → ObjectId → List CartItem
  | [], _ => []
  | item :: items, id =>
    if item.product._id = id then { item with qty := item.qty + 1 } :: items
    else item :: bumpQty items id

/-- `addToCart(product)`: the cart afterwards. -/
def addToCart (cart : List CartItem) (product : Product) : List CartItem :=
  match cart.find? fun item => decide (item.product._id = product._id) with
  | some _ => bumpQty cart product._id
  | none => cart ++ [{ product := product, qty := 1 }]

/-- `renderCart()`: the number `total` whose two-decimal rendering is written
to the total-price element (`0.00` for the empty cart). -/
def renderCart (cart : List CartItem) : ℚ :=
  if cart.length = 0 then 0
  else cart.foldl (fun total item => total + priceOf item.product * item.qty) 0

/-- `removeFromCart(index)`: `cart.splice(index, 1)`, the cart afterwards. -/
def removeFromCart (cart : List CartItem) (index : Nat) : List CartItem :=
  cart.eraseIdx index

/-- What a click on the checkout button shows. -/
inductive CheckoutResult where
  | emptyMessage
  | checkedOut (total : ℚ)
  deriving DecidableEq, Repr

/-- The click handler of the checkout button: the outcome and the cart
afterwards. -/
def checkout (cart : List CartItem) : CheckoutResult × List CartItem :=
  if cart.length = 0 then (.emptyMessage, cart)
  else (.checkedOut (renderCart cart), [])

/-- A user action on the cart. -/
inductive CartAction where
  | add (product : Product)
  | remove (index : Nat)
  | checkout
  deriving DecidableEq, Repr

/-- The cart after one action. -/
def cartStep (cart : List CartItem) : CartAction → List CartItem
  | .add product => addToCart cart product
  | .remove index => removeFromCart cart index
  | .checkout => (checkout cart).2

/-- The cart after the actions in order. -/
def cartRun (cart : List CartItem) (actions : List CartAction) : List CartItem :=
  actions.foldl cartStep cart

end Task3

/-! ## Properties of the handlers -/

namespace Js

theorem truthy_of_missing {v : JsVal} (h : missing v) : truthy v = false := by
  rcases h with h | h | h <;> subst h <;> simp [truthy]

end Js

namespace Task1
open Js

/-- C1: in task1, a POST /api/products whose body lacks one of name, price,
image (absent, null or empty) is answered 400 and the collection, hence the
listing GET /api/products returns, is unchanged. -/
theorem inventory_missing_field (toNumber : String → Option ℚ) (db : List Product)
    (newId : ObjectId) (body : ReqBody)
    (h : missing (body "name") ∨ missing (body "price") ∨ missing (body "image")) :
    (postProducts toNumber db newId body).1.status = 400 ∧
    (postProducts toNumber db newId body).2 = db ∧
    getProducts (postProducts toNumber db newId body).2 = getProducts db := by
  have hc : (!truthy (body "name") || !truthy (body "price") || !truthy (body "image"))
      = true := by
    rcases h with h | h | h <;> simp [truthy_of_missing h]
  simp [postProducts, hc]

theorem inventory_missing_field_witness :
    (missing (ofFields [("name", .str "Pen"), ("image", .str "http://x/y.png")] "name") ∨
      missing (ofFields [("name", .str "Pen"), ("image", .str "http://x/y.png")] "price") ∨
      missing (ofFields [("name", .str "Pen"), ("image", .str "http://x/y.png")] "image")) ∧
    (postProducts (fun _ => none) [⟨7, .lit "Ink", 2, .lit "u"⟩] 8
      (ofFields [("name", .str "Pen"), ("image", .str "http://x/y.png")])).1.status = 400 ∧
    (postProducts (fun _ => none) [⟨7, .lit "Ink", 2, .lit "u"⟩] 8
      (ofFields [("name", .str "Pen"), ("image", .str "http://x/y.png")])).2
      = [⟨7, .lit "Ink", 2, .lit "u"⟩] :=
  have hm : missing (ofFields [("name", .str "Pen"), ("image", .str "http://x/y.png")] "price") :=
    Or.inl (by decide)
  ⟨Or.inr (Or.inl hm),
    (inventory_missing_field _ _ _ _ (Or.inr (Or.inl hm))).1,
    (inventory_missing_field _ _ _ _ (Or.inr (Or.inl hm))).2.1⟩

/-- C3: in task1, a POST /api/products with a non-empty name, a non-empty image
and a positive numeric price is answered 201 with the entity carrying exactly
that name, price and image and the generated id, and GET /api/products then
returns the previous list followed by that entity. -/
theorem inventory_created (toNumber : String → Option ℚ) (db : List Product)
    (newId : ObjectId) (body : ReqBody) (name image : String) (price : ℚ)
    (hname : body "name" = .str name) (hn : name ≠ "")
    (himage : body "image" = .str image) (hi : image ≠ "")
    (hprice : body "price" = .num price) (hp : 0 < price) :
    (postProducts toNumber db newId body).1 =
      { status := 201, body := .product ⟨newId, .lit name, price, .lit image⟩ } ∧
    getProducts (postProducts toNumber db newId body).2 =
      { status := 200, body := .products (db ++ [⟨newId, .lit name, price, .lit image⟩]) } := by
  have hp0 : price ≠ 0 := ne_of_gt hp
  simp [postProducts, getProducts, newProduct, hname, himage, hprice, truthy, castString,
    castNumber, StrVal.isEmpty, hn, hi, hp0]

theorem inventory_created_witness :
    (postProducts (fun _ => none) [⟨7, .lit "Ink", 2, .lit "u"⟩] 8
      (ofFields [("name", .str "Pen"), ("price", .num (3 / 2)),
        ("image", .str "http://x/y.png")])).1 =
      { status := 201, body := .product ⟨8, .lit "Pen", 3 / 2, .lit "http://x/y.png"⟩ } ∧
    getProducts (postProducts (fun _ => none) [⟨7, .lit "Ink", 2, .lit "u"⟩] 8
      (ofFields [("name", .str "Pen"), ("price", .num (3 / 2)),
        ("image", .str "http://x/y.png")])).2 =
      { status := 200,
        body := .products ([⟨7, .lit "Ink", 2, .lit "u"⟩,
          ⟨8, .lit "Pen", 3 / 2, .lit "http://x/y.png"⟩]) } :=
  inventory_created (fun _ => none) [⟨7, .lit "Ink", 2, .lit "u"⟩] 8 _
    "Pen" "http://x/y.png" (3 / 2) rfl (by decide) rfl (by decide) rfl (by norm_num)

end Task1

namespace Task3
open Js

/-- C2 (the code at the failing input): in task3 a POST /api/products whose
price is the empty string, all other fields present, slips through the guard
`price == null`: it is answered 201, where the claim expects 400, and a product
whose price is null is stored. -/
theorem storefront_empty_price_accepted :
    missing (ofFields [("title", .str "T"), ("description", .str "D"), ("price", .str ""),
      ("imageUrl", .str "u")] "price") ∧
    ∀ toNumber : String → Option ℚ,
      postProducts toNumber [] 1 (ofFields [("title", .str "T"), ("description", .str "D"),
        ("price", .str ""), ("imageUrl", .str "u")]) =
      ({ status := 201,
         body := .product ⟨1, some (.lit "T"), some (.lit "D"), none, some (.lit "u")⟩ },
        [⟨1, some (.lit "T"), some (.lit "D"), none, some (.lit "u")⟩]) :=
  ⟨Or.inr (Or.inr rfl), fun _ => rfl⟩

/-- The part of the required-field check of task3 that works: a POST
/api/products in which title, description or imageUrl is absent, null or empty,
or price is absent or null, is answered 400 and the collection is unchanged. -/
theorem storefront_missing_field (toNumber : String → Option ℚ) (db : List Product)
    (newId : ObjectId) (body : ReqBody)
    (h : missing (body "title") ∨ missing (body "description") ∨
      (body "price" = .undefined ∨ body "price" = .null) ∨ missing (body "imageUrl")) :
    (postProducts toNumber db newId body).1.status = 400 ∧
    (postProducts toNumber db newId body).2 = db := by
  have hc : (!truthy (body "title") || !truthy (body "description") ||
      looseNull (body "price") || !truthy (body "imageUrl")) = true := by
    rcases h with h | h | h | h
    · simp [truthy_of_missing h]
    · simp [truthy_of_missing h]
    · rcases h with h | h <;> simp [h, looseNull]
    · simp [truthy_of_missing h]
  simp [postProducts, hc]

theorem storefront_missing_field_witness :
    (postProducts (fun _ => none) [⟨7, some (.lit "Ink"), none, some 2, some (.lit "u")⟩] 8
      (ofFields [("title", .str "T"), ("description", .str "D"), ("price", .null),
        ("imageUrl", .str "u")])).1.status = 400 ∧
    (postProducts (fun _ => none) [⟨7, some (.lit "Ink"), none, some 2, some (.lit "u")⟩] 8
      (ofFields [("title", .str "T"), ("description", .str "D"), ("price", .null),
        ("imageUrl", .str "u")])).2 =
      [⟨7, some (.lit "Ink"), none, some 2, some (.lit "u")⟩] :=
  storefront_missing_field _ _ _ _ (Or.inr (Or.inr (Or.inl (Or.inr rfl))))

end Task3

/-! ### Stored prices -/

namespace Task1
open Js

theorem newProduct_price (toNumber : String → Option ℚ) (newId : ObjectId)
    (name price image : JsVal) (product : Product)
    (h : newProduct toNumber newId name price image = .ok product) :
    castNumber toNumber price = .ok (some product.price) := by
  unfold newProduct at h
  split at h
  · rename_i hp _
    split at h
    · cases h
    · injection h with h
      subst h
      exact hp
  · cases h
  · cases h

/-- A product that task1 stores comes from a truthy price. -/
theorem inventory_created_truthy (toNumber : String → Option ℚ) (db : List Product)
    (newId : ObjectId) (body : ReqBody)
    (h : (postProducts toNumber db newId body).1.status = 201) :
    truthy (body "price") = true := by
  unfold postProducts at h
  by_cases hp : truthy (body "price") = true
  · exact hp
  · simp [hp] at h

/-- The number cast of a truthy scalar that is not a string is not zero. -/
theorem castNumber_ne_zero (toNumber : String → Option ℚ) (v : JsVal) (q : ℚ)
    (hs : ∀ s, v ≠ .str s) (ht : truthy v = true)
    (hc : castNumber toNumber v = .ok (some q)) : q ≠ 0 := by
  cases v with
  | undefined => simp [truthy] at ht
  | null => simp [truthy] at ht
  | str s => exact absurd rfl (hs s)
  | bool b =>
    cases b
    · simp [truthy] at ht
    · simp only [castNumber, if_true] at hc
      injection hc with hc
      injection hc with hc
      rw [← hc]
      exact one_ne_zero
  | num r =>
    simp only [castNumber] at hc
    injection hc with hc
    injection hc with hc
    rw [← hc]
    simpa [truthy] using ht

/-- A POST whose price is not a string stores no zero price. -/
theorem inventory_post_price_ne_zero (toNumber : String → Option ℚ) (db : List Product)
    (newId : ObjectId) (body : ReqBody) (hs : ∀ s, body "price" ≠ .str s)
    (hdb : ∀ p ∈ db, p.price ≠ 0) :
    ∀ p ∈ (postProducts toNumber db newId body).2, p.price ≠ 0 := by
  unfold postProducts
  simp only []
  split
  · exact hdb
  · rename_i hc
    have ht : truthy (body "price") = true := by
      simp only [Bool.or_eq_true, Bool.not_eq_true', not_or, Bool.not_eq_false] at hc
      exact hc.1.2
    split
    · rename_i product hok
      intro p hp
      rcases List.mem_append.1 hp with hp | hp
      · exact hdb p hp
      · have hpe : p = product := by simpa using hp
        subst hpe
        exact castNumber_ne_zero toNumber _ _ hs ht (newProduct_price _ _ _ _ _ _ hok)
    · exact hdb

theorem inventory_step_price_ne_zero (toNumber : String → Option ℚ) (db : List Product)
    (r : Req) (hr : ∀ newId body, r = .post newId body → ∀ s, body "price" ≠ .str s)
    (hdb : ∀ p ∈ db, p.price ≠ 0) :
    ∀ p ∈ (step toNumber db r).2, p.price ≠ 0 := by
  cases r with
  | get => exact hdb
  | post newId body =>
    exact inventory_post_price_ne_zero toNumber db newId body (hr newId body rfl) hdb
  | delete id =>
    cases id with
    | malformed => exact hdb
    | valid i =>
      intro p hp
      exact hdb p (List.mem_of_mem_eraseP hp)

theorem inventory_run_price_ne_zero (toNumber : String → Option ℚ) (reqs : List Req) :
    ∀ db : List Product,
      (∀ r ∈ reqs, ∀ newId body, r = .post newId body → ∀ s, body "price" ≠ .str s) →
      (∀ p ∈ db, p.price ≠ 0) → ∀ p ∈ run toNumber db reqs, p.price ≠ 0 := by
  induction reqs with
  | nil => intro db _ hdb; exact hdb
  | cons r rs ih =>
    intro db hr hdb
    exact ih _ (fun r1 h1 => hr r1 (List.mem_cons_of_mem _ h1))
      (inventory_step_price_ne_zero toNumber db r (hr r (List.mem_cons_self _ _)) hdb)

end Task1

namespace Task3
open Js

/-- A product that task3 stores comes from a price that is neither absent nor
null. -/
theorem storefront_created_price_present (toNumber : String → Option ℚ) (db : List Product)
    (newId : ObjectId) (body : ReqBody)
    (h : (postProducts toNumber db newId body).1.status = 201) :
    body "price" ≠ .undefined ∧ body "price" ≠ .null := by
  unfold postProducts at h
  constructor <;> intro hp <;> simp [hp, looseNull] at h

end Task3

namespace Catalog
open Js

/-- C4 (as stated, refuted): from the empty store, task1 answers 201 to a POST
with price -5 and stores it, and task3 answers 201 to a POST with price 0 and
stores it; neither stored price is positive. -/
theorem nonpositive_price_persisted :
    (∀ toNumber : String → Option ℚ,
      (Task1.postProducts toNumber [] 1 (ofFields [("name", .str "Pen"), ("price", .num (-5)),
        ("image", .str "u")])).1.status = 201 ∧
      Task1.run toNumber [] [.post 1 (ofFields [("name", .str "Pen"), ("price", .num (-5)),
        ("image", .str "u")])] = [⟨1, .lit "Pen", -5, .lit "u"⟩]) ∧
    (∀ toNumber : String → Option ℚ,
      (Task3.postProducts toNumber [] 1 (ofFields [("title", .str "T"),
        ("description", .str "D"), ("price", .num 0), ("imageUrl", .str "u")])).1.status = 201 ∧
      Task3.run toNumber [] [.post 1 (ofFields [("title", .str "T"),
        ("description", .str "D"), ("price", .num 0), ("imageUrl", .str "u")])] =
        [⟨1, some (.lit "T"), some (.lit "D"), some 0, some (.lit "u")⟩]) ∧
    ¬ ((0 : ℚ) < -5) ∧ ¬ ((0 : ℚ) < 0) :=
  ⟨fun _ => ⟨rfl, rfl⟩, fun _ => ⟨rfl, rfl⟩, by norm_num, by norm_num⟩

/-- C4 (amended): each POST /api/products handler answers 201 only when the
supplied price is present: truthy in task1 (not absent, null, 0, false or
empty), neither absent nor null in task3.  From the empty store, after every
sequence of task1 requests (POST/GET/DELETE) whose POST prices are not strings,
every stored product has a price different from 0. -/
theorem price_presence_enforced :
    (∀ (toNumber : String → Option ℚ) (db : List Task1.Product) (newId : ObjectId)
      (body : ReqBody), (Task1.postProducts toNumber db newId body).1.status = 201 →
        truthy (body "price") = true) ∧
    (∀ (toNumber : String → Option ℚ) (db : List Task3.Product) (newId : ObjectId)
      (body : ReqBody), (Task3.postProducts toNumber db newId body).1.status = 201 →
        body "price" ≠ .undefined ∧ body "price" ≠ .null) ∧
    (∀ (toNumber : String → Option ℚ) (reqs : List Task1.Req),
      (∀ r ∈ reqs, ∀ newId body, r = .post newId body → ∀ s, body "price" ≠ .str s) →
        ∀ p ∈ Task1.run toNumber [] reqs, p.price ≠ 0) :=
  ⟨Task1.inventory_created_truthy, Task3.storefront_created_price_present,
    fun toNumber reqs hr =>
      Task1.inventory_run_price_ne_zero toNumber reqs [] hr (fun _ h => absurd h (List.not_mem_nil _))⟩

end Catalog

/-! ### Deleting and the task routes of task2 -/

namespace Task2
open Js

theorem findById_none_iff (db : List Project) (pid : ObjectId) :
    findById db (.valid pid) = .ok none ↔ ∀ p ∈ db, p._id ≠ pid := by
  simp [findById]

theorem findById_some_id {db : List Project} {pid : ObjectId} {p : Project}
    (h : findById db (.valid pid) = .ok (some p)) : p._id = pid := by
  simp only [findById, Except.ok.injEq] at h
  simpa using List.find?_some h

theorem tasksId_none_iff (tasks : List Task) (tid : ObjectId) :
    tasksId tasks (.valid tid) = none ↔ ∀ t ∈ tasks, t._id ≠ tid := by
  simp [tasksId]

theorem tasksId_some_id {tasks : List Task} {tid : ObjectId} {t : Task}
    (h : tasksId tasks (.valid tid) = some t) : t._id = tid := by
  simp only [tasksId] at h
  simpa using List.find?_some h

/-- Saving a project absent from the collection changes nothing. -/
theorem save_absent (db : List Project) (q : Project) (h : ∀ p ∈ db, p._id ≠ q._id) :
    save db q = db := by
  induction db with
  | nil => rfl
  | cons d ds ih =>
    have hd : d._id ≠ q._id := h d (List.mem_cons_self _ _)
    simp [save, hd, ih (fun p hp => h p (List.mem_cons_of_mem _ hp))]

/-- After a save, `findById` returns the saved project. -/
theorem findById_save (db : List Project) (pid : ObjectId) (p q : Project)
    (hp : findById db (.valid pid) = .ok (some p)) (hq : q._id = pid) :
    findById (save db q) (.valid pid) = .ok (some q) := by
  simp only [findById, Except.ok.injEq] at hp ⊢
  induction db with
  | nil => simp at hp
  | cons d ds ih =>
    by_cases hd : d._id = pid
    · simp [save, hd, hq]
    · have hd2 : ¬ d._id = q._id := by rw [hq]; exact hd
      simp only [List.find?, hd, decide_False] at hp
      simp only [save, hd2, if_false, List.find?, hd, decide_False]
      exact ih hp

/-- Saving the same project twice is saving it once. -/
theorem save_save (db : List Project) (q : Project) : save (save db q) q = save db q := by
  induction db with
  | nil => rfl
  | cons d ds ih =>
    by_cases hd : d._id = q._id
    · simp [save, hd]
    · simp [save, hd, ih]

theorem tasksId_setCompleted (tasks : List Task) (tid : ObjectId) (t : Task) (c : Option Bool)
    (h : tasksId tasks (.valid tid) = some t) :
    tasksId (setCompleted tasks tid c) (.valid tid) = some { t with completed := c } := by
  simp only [tasksId] at h ⊢
  induction tasks with
  | nil => simp at h
  | cons d ds ih =>
    by_cases hd : d._id = tid
    · simp only [List.find?, hd, decide_True, Option.some.injEq] at h
      subst h
      simp [setCompleted, hd]
    · simp only [List.find?, hd, decide_False] at h
      simp only [setCompleted, hd, if_false, List.find?, decide_False]
      exact ih h

theorem setCompleted_setCompleted (tasks : List Task) (tid : ObjectId) (c : Option Bool) :
    setCompleted (setCompleted tasks tid c) tid c = setCompleted tasks tid c := by
  induction tasks with
  | nil => rfl
  | cons d ds ih =>
    by_cases hd : d._id = tid
    · simp [setCompleted, hd]
    · simp [setCompleted, hd, ih]

/-- The project `findById` returns splits the collection, and a save of a
project with its id replaces exactly that element. -/
theorem findById_split (db : List Project) (pid : ObjectId) (p : Project)
    (hp : findById db (.valid pid) = .ok (some p)) :
    ∃ before after, db = before ++ p :: after ∧ (∀ a ∈ before, a._id ≠ pid) ∧
      ∀ q : Project, q._id = pid → save db q = before ++ q :: after := by
  simp only [findById, Except.ok.injEq] at hp
  induction db with
  | nil => simp at hp
  | cons d ds ih =>
    by_cases hd : d._id = pid
    · simp only [List.find?, hd, decide_True, Option.some.injEq] at hp
      subst hp
      refine ⟨[], ds, rfl, fun a ha => absurd ha (List.not_mem_nil _), ?_⟩
      intro q hq
      simp [save, hd, hq]
    · simp only [List.find?, hd, decide_False] at hp
      obtain ⟨before, after, hdb, hno, hsave⟩ := ih hp
      refine ⟨d :: before, after, by rw [hdb]; rfl, ?_, ?_⟩
      · intro a ha
        rcases List.mem_cons.1 ha with ha | ha
        · rw [ha]; exact hd
        · exact hno a ha
      · intro q hq
        have hd2 : ¬ d._id = q._id := by rw [hq]; exact hd
        simp [save, hd2, hsave q hq]

/-- The task `tasksId` returns splits the task list, and `setCompleted` changes
exactly that element. -/
theorem tasksId_split (tasks : List Task) (tid : ObjectId) (t : Task)
    (ht : tasksId tasks (.valid tid) = some t) :
    ∃ before after, tasks = before ++ t :: after ∧ (∀ a ∈ before, a._id ≠ tid) ∧
      ∀ c, setCompleted tasks tid c = before ++ { t with completed := c } :: after := by
  simp only [tasksId] at ht
  induction tasks with
  | nil => simp at ht
  | cons d ds ih =>
    by_cases hd : d._id = tid
    · simp only [List.find?, hd, decide_True, Option.some.injEq] at ht
      subst ht
      refine ⟨[], ds, rfl, fun a ha => absurd ha (List.not_mem_nil _), ?_⟩
      intro c
      simp [setCompleted, hd]
    · simp only [List.find?, hd, decide_False] at ht
      obtain ⟨before, after, htasks, hno, hset⟩ := ih ht
      refine ⟨d :: before, after, by rw [htasks]; rfl, ?_, ?_⟩
      · intro a ha
        rcases List.mem_cons.1 ha with ha | ha
        · rw [ha]; exact hd
        · exact hno a ha
      · intro c
        simp [setCompleted, hd, hset c]

end Task2

namespace Task2
open Js

/-- C5 (as stated, refuted): a malformed id matches no stored entity, and both
DELETE /api/products/:id (task1) and DELETE /api/projects/:id (task2) answer it
with 500, not with the 200 success response. -/
theorem delete_malformed_id :
    (∀ p ∈ ([⟨7, .lit "Ink", 2, .lit "u"⟩] : List Task1.Product),
      ¬ RouteId.malformed.matches p._id) ∧
    (∀ p ∈ ([⟨3, some (.lit "P"), []⟩] : List Project), ¬ RouteId.malformed.matches p._id) ∧
    Task1.deleteProduct [⟨7, .lit "Ink", 2, .lit "u"⟩] .malformed =
      ({ status := 500, body := .message "Failed to delete product" },
        [⟨7, .lit "Ink", 2, .lit "u"⟩]) ∧
    deleteProject [⟨3, some (.lit "P"), []⟩] .malformed =
      ({ status := 500, body := .message "Failed to delete project" },
        [⟨3, some (.lit "P"), []⟩]) :=
  ⟨fun _ _ h => RouteId.noConfusion h, fun _ _ h => RouteId.noConfusion h, rfl, rfl⟩

/-- C5 (amended): for an id that matches no stored entity, DELETE
/api/products/:id (task1) and DELETE /api/projects/:id (task2) leave the
collection unchanged and answer 200 with the message Deleted when the id is
well formed, 500 when it is malformed; deleting that id a second time gives the
same response and the same collection as deleting it once. -/
theorem delete_absent_id (r : RouteId) (products : List Task1.Product)
    (projects : List Project) (h1 : ∀ p ∈ products, ¬ r.matches p._id)
    (h2 : ∀ p ∈ projects, ¬ r.matches p._id) :
    Task1.deleteProduct products r =
      (match r with
        | .valid _ => { status := 200, body := .message "Deleted" }
        | .malformed => { status := 500, body := .message "Failed to delete product" },
        products) ∧
    deleteProject projects r =
      (match r with
        | .valid _ => { status := 200, body := .message "Deleted" }
        | .malformed => { status := 500, body := .message "Failed to delete project" },
        projects) ∧
    Task1.deleteProduct (Task1.deleteProduct products r).2 r = Task1.deleteProduct products r ∧
    deleteProject (deleteProject projects r).2 r = deleteProject projects r := by
  cases r with
  | malformed =>
    simp [Task1.deleteProduct, Task1.findByIdAndDelete, deleteProject, findByIdAndDelete]
  | valid id =>
    have e1 : products.eraseP (fun p => decide (p._id = id)) = products :=
      List.eraseP_of_forall_not (fun p hp => by
        have := h1 p hp
        simp only [RouteId.matches, RouteId.valid.injEq] at this
        simpa using fun h => this h.symm)
    have e2 : projects.eraseP (fun p => decide (p._id = id)) = projects :=
      List.eraseP_of_forall_not (fun p hp => by
        have := h2 p hp
        simp only [RouteId.matches, RouteId.valid.injEq] at this
        simpa using fun h => this h.symm)
    simp [Task1.deleteProduct, Task1.findByIdAndDelete, deleteProject, findByIdAndDelete,
      e1, e2]

theorem delete_absent_id_witness :
    Task1.deleteProduct [⟨7, .lit "Ink", 2, .lit "u"⟩] (.valid 9) =
      ({ status := 200, body := .message "Deleted" }, [⟨7, .lit "Ink", 2, .lit "u"⟩]) ∧
    deleteProject [⟨3, some (.lit "P"), []⟩] (.valid 9) =
      ({ status := 200, body := .message "Deleted" }, [⟨3, some (.lit "P"), []⟩]) ∧
    Task1.deleteProduct (Task1.deleteProduct [⟨7, .lit "Ink", 2, .lit "u"⟩] (.valid 9)).2
      (.valid 9) = Task1.deleteProduct [⟨7, .lit "Ink", 2, .lit "u"⟩] (.valid 9) ∧
    deleteProject (deleteProject [⟨3, some (.lit "P"), []⟩] (.valid 9)).2 (.valid 9) =
      deleteProject [⟨3, some (.lit "P"), []⟩] (.valid 9) :=
  delete_absent_id (.valid 9) [⟨7, .lit "Ink", 2, .lit "u"⟩] [⟨3, some (.lit "P"), []⟩]
    (by simp [RouteId.matches]) (by simp [RouteId.matches])

/-- C6 (as stated, refuted): POST /api/projects/:id/tasks on a project id that
matches nothing is answered 400, not 404, when the body is empty, and 500, not
404, when the id is malformed and the title present. -/
theorem postTask_absent_project_not_404 :
    (∀ p ∈ ([⟨3, some (.lit "P"), []⟩] : List Project),
      ¬ (RouteId.valid 9).matches p._id ∧ ¬ RouteId.malformed.matches p._id) ∧
    postTask [⟨3, some (.lit "P"), []⟩] (.valid 9) 10 (ofFields []) =
      ({ status := 400, body := .message "Title required" }, [⟨3, some (.lit "P"), []⟩]) ∧
    postTask [⟨3, some (.lit "P"), []⟩] .malformed 10 (ofFields [("title", .str "write")]) =
      ({ status := 500, body := .message "Failed to add task" },
        [⟨3, some (.lit "P"), []⟩]) :=
  ⟨by simp [RouteId.matches], rfl, rfl⟩

/-- C6 (amended): for a project id that matches no stored Project, POST
/api/projects/:id/tasks answers 400 when the title is absent, null or empty
(falsy), and otherwise 404 when the id is well formed and 500 when it is
malformed; in every case the store is unchanged, so no Project is created and no
Task is added. -/
theorem postTask_absent_project (db : List Project) (r : RouteId) (newId : ObjectId)
    (body : ReqBody) (h : ∀ p ∈ db, ¬ r.matches p._id) :
    (postTask db r newId body).1.status =
      (if truthy (body "title") = true then
        (match r with
          | .valid _ => 404
          | .malformed => 500)
        else 400) ∧
    (postTask db r newId body).2 = db := by
  cases r with
  | malformed =>
    by_cases ht : truthy (body "title") = true <;> simp [postTask, ht, findById]
  | valid id =>
    have hf : findById db (.valid id) = .ok none :=
      (findById_none_iff db id).2 (fun p hp => by
        have := h p hp
        simp only [RouteId.matches, RouteId.valid.injEq] at this
        exact fun h => this h.symm)
    by_cases ht : truthy (body "title") = true <;> simp [postTask, ht, hf]

theorem postTask_absent_project_witness :
    (postTask [⟨3, some (.lit "P"), []⟩] (.valid 9) 10
      (ofFields [("title", .str "write")])).1.status = 404 ∧
    (postTask [⟨3, some (.lit "P"), []⟩] (.valid 9) 10
      (ofFields [("title", .str "write")])).2 = [⟨3, some (.lit "P"), []⟩] :=
  postTask_absent_project [⟨3, some (.lit "P"), []⟩] (.valid 9) 10 _
    (by simp [RouteId.matches])

end Task2

namespace Task2
open Js

/-- For well-formed ids, PATCH /api/projects/:pid/tasks/:tid answers 404 exactly
when no Project has id pid or the Project with id pid has no Task with id tid;
whenever it answers 404 the store is unchanged; and when both exist and the
completed value casts to a boolean it answers 200. -/
theorem patchTask_not_found (db : List Project) (pid tid : ObjectId) (body : ReqBody) :
    ((patchTask db (.valid pid) (.valid tid) body).1.status = 404 ↔
      ((∀ p ∈ db, p._id ≠ pid) ∨
        ∃ p, findById db (.valid pid) = .ok (some p) ∧ ∀ t ∈ p.tasks, t._id ≠ tid)) ∧
    ((patchTask db (.valid pid) (.valid tid) body).1.status = 404 →
      (patchTask db (.valid pid) (.valid tid) body).2 = db) ∧
    (∀ p t c, findById db (.valid pid) = .ok (some p) → t ∈ p.tasks → t._id = tid →
      castBoolean (body "completed") = .ok c →
      (patchTask db (.valid pid) (.valid tid) body).1.status = 200) := by
  cases hf : findById db (.valid pid) with
  | error e => simp [findById] at hf
  | ok op =>
    cases op with
    | none =>
      have hn := (findById_none_iff db pid).1 hf
      simpa [patchTask, hf] using hn
    | some p =>
      have hex : ¬ ∀ q ∈ db, q._id ≠ pid := by
        intro hall
        rw [(findById_none_iff db pid).2 hall] at hf
        cases hf
      cases ht : tasksId p.tasks (.valid tid) with
      | none =>
        have hn := (tasksId_none_iff p.tasks tid).1 ht
        refine ⟨?_, ?_, ?_⟩
        · simp only [patchTask, hf, ht, true_iff]
          exact Or.inr ⟨p, rfl, hn⟩
        · simp [patchTask, hf, ht]
        · intro q t c hq hmem hid _
          injection hq with hq
          injection hq with hq
          subst hq
          exact absurd hid (hn t hmem)
      | some t =>
        have hne : ¬ ∀ u ∈ p.tasks, u._id ≠ tid := by
          intro hall
          rw [(tasksId_none_iff p.tasks tid).2 hall] at ht
          cases ht
        refine ⟨?_, ?_, ?_⟩
        · constructor
          · intro h
            cases hc : castBoolean (body "completed") <;> simp [patchTask, hf, ht, hc] at h
          · rintro (h | ⟨q, hq, hall⟩)
            · exact absurd h hex
            · injection hq with hq
              injection hq with hq
              subst hq
              exact absurd hall hne
        · intro h
          cases hc : castBoolean (body "completed") <;> simp [patchTask, hf, ht, hc] at h
        · intro q u c _ _ _ hc
          simp [patchTask, hf, ht, hc]

/-- The example of the spec: `{completed: true}` on an unknown task id under an
existing project id is answered 404 and changes nothing. -/
theorem patchTask_unknown_task_example :
    patchTask [⟨3, some (.lit "P"), [⟨10, some (.lit "a"), some false⟩]⟩] (.valid 3) (.valid 11)
      (ofFields [("completed", .bool true)]) =
      ({ status := 404, body := .message "Task not found" },
        [⟨3, some (.lit "P"), [⟨10, some (.lit "a"), some false⟩]⟩]) :=
  rfl

/-- The first project with the id is the one `findById` returns. -/
theorem findById_of_split (before after : List Project) (p : Project) (pid : ObjectId)
    (hpid : p._id = pid) (hno : ∀ a ∈ before, a._id ≠ pid) :
    findById (before ++ p :: after) (.valid pid) = .ok (some p) := by
  simp only [findById, Except.ok.injEq]
  induction before with
  | nil => simp [hpid]
  | cons d ds ih =>
    have hd : ¬ d._id = pid := hno d (List.mem_cons_self _ _)
    simp only [List.cons_append, List.find?, hd, decide_False]
    exact ih (fun a ha => hno a (List.mem_cons_of_mem _ ha))

theorem tasksId_none_iff_matches (tasks : List Task) (r : RouteId) :
    tasksId tasks r = none ↔ ∀ t ∈ tasks, ¬ r.matches t._id := by
  cases r with
  | malformed => simp [tasksId, RouteId.matches]
  | valid tid =>
    rw [tasksId_none_iff]
    simp only [RouteId.matches, RouteId.valid.injEq]
    exact ⟨fun h t ht e => h t ht e.symm, fun h t ht e => h t ht e.symm⟩

/-- C7 (as stated, refuted): a malformed project id, which no Project has, is
answered 500, not 404; and with project 3 and its task 10 both there, the body
`{completed: "maybe"}` is answered 500, not 200. -/
theorem patchTask_not_404_not_200 :
    (∀ p ∈ ([⟨3, some (.lit "P"), [⟨10, some (.lit "a"), some false⟩]⟩] : List Project),
      ¬ RouteId.malformed.matches p._id) ∧
    patchTask [⟨3, some (.lit "P"), [⟨10, some (.lit "a"), some false⟩]⟩] .malformed (.valid 10)
      (ofFields [("completed", .bool true)]) =
      ({ status := 500, body := .message "Failed to update task" },
        [⟨3, some (.lit "P"), [⟨10, some (.lit "a"), some false⟩]⟩]) ∧
    patchTask [⟨3, some (.lit "P"), [⟨10, some (.lit "a"), some false⟩]⟩] (.valid 3) (.valid 10)
      (ofFields [("completed", .str "maybe")]) =
      ({ status := 500, body := .message "Failed to update task" },
        [⟨3, some (.lit "P"), [⟨10, some (.lit "a"), some false⟩]⟩]) :=
  ⟨fun _ _ h => RouteId.noConfusion h, rfl, rfl⟩

/-- C7 (amended): PATCH /api/projects/:pid/tasks/:tid answers 404 exactly when
pid is a well-formed id and either no Project has it or the Project with id pid
(the first in the store) has no Task matching tid; whenever it answers 404 the
store is unchanged; a malformed pid is answered 500 with the store unchanged;
when project and task both exist it answers 200 if completed is a boolean, and
500 with the store unchanged if the completed value does not cast to a
boolean. -/
theorem patchTask_status (db : List Project) (projectId taskId : RouteId) (body : ReqBody) :
    ((patchTask db projectId taskId body).1.status = 404 ↔
      ∃ pid, projectId = .valid pid ∧
        ((∀ p ∈ db, p._id ≠ pid) ∨
          ∃ before p after, db = before ++ p :: after ∧ p._id = pid ∧
            (∀ a ∈ before, a._id ≠ pid) ∧ ∀ t ∈ p.tasks, ¬ taskId.matches t._id)) ∧
    ((patchTask db projectId taskId body).1.status = 404 →
      (patchTask db projectId taskId body).2 = db) ∧
    (projectId = .malformed →
      patchTask db projectId taskId body =
        ({ status := 500, body := .message "Failed to update task" }, db)) ∧
    (∀ pid before p after t, projectId = .valid pid → db = before ++ p :: after →
      p._id = pid → (∀ a ∈ before, a._id ≠ pid) → t ∈ p.tasks → taskId.matches t._id →
      (∀ b, body "completed" = .bool b →
        (patchTask db projectId taskId body).1.status = 200) ∧
      (∀ e, castBoolean (body "completed") = .error e →
        patchTask db projectId taskId body =
          ({ status := 500, body := .message "Failed to update task" }, db))) := by
  cases projectId with
  | malformed =>
    refine ⟨?_, ?_, ?_, ?_⟩
    · simp [patchTask, findById]
    · simp [patchTask, findById]
    · intro _
      simp [patchTask, findById]
    · intro pid before p after t h
      cases h
  | valid pid =>
    cases hf : findById db (.valid pid) with
    | error e => simp [findById] at hf
    | ok op =>
      cases op with
      | none =>
        have hn := (findById_none_iff db pid).1 hf
        refine ⟨?_, ?_, ?_, ?_⟩
        · simp only [patchTask, hf, true_iff]
          exact ⟨pid, rfl, Or.inl hn⟩
        · simp [patchTask, hf]
        · intro h
          cases h
        · intro pid2 before p after t h hdb hpid hno _ _
          injection h with h
          subst h
          rw [hdb, findById_of_split before after p pid hpid hno] at hf
          cases hf
      | some p =>
        obtain ⟨before, after, hdb, hno, _⟩ := findById_split db pid p hf
        have hpid : p._id = pid := findById_some_id hf
        have hex : ¬ ∀ q ∈ db, q._id ≠ pid := by
          intro hall
          rw [(findById_none_iff db pid).2 hall] at hf
          cases hf
        have huniq : ∀ before2 p2 after2, db = before2 ++ p2 :: after2 → p2._id = pid →
            (∀ a ∈ before2, a._id ≠ pid) → p2 = p := by
          intro before2 p2 after2 hdb2 hpid2 hno2
          have h2 := findById_of_split before2 after2 p2 pid hpid2 hno2
          rw [← hdb2, hf] at h2
          injection h2 with h2
          injection h2 with h2
          exact h2.symm
        cases ht : tasksId p.tasks taskId with
        | none =>
          have hn := (tasksId_none_iff_matches p.tasks taskId).1 ht
          refine ⟨?_, ?_, ?_, ?_⟩
          · simp only [patchTask, hf, ht, true_iff]
            exact ⟨pid, rfl, Or.inr ⟨before, p, after, hdb, hpid, hno, hn⟩⟩
          · simp [patchTask, hf, ht]
          · intro h
            cases h
          · intro pid2 before2 p2 after2 t h hdb2 hpid2 hno2 hmem hmatch
            injection h with h
            subst h
            have := huniq before2 p2 after2 hdb2 hpid2 hno2
            subst this
            exact absurd hmatch (hn t hmem)
        | some t =>
          have hne : ¬ ∀ u ∈ p.tasks, ¬ taskId.matches u._id := by
            intro hall
            rw [(tasksId_none_iff_matches p.tasks taskId).2 hall] at ht
            cases ht
          refine ⟨?_, ?_, ?_, ?_⟩
          · constructor
            · intro h
              cases hc : castBoolean (body "completed") <;>
                simp [patchTask, hf, ht, hc] at h
            · rintro ⟨pid2, h, hcase⟩
              injection h with h
              subst h
              rcases hcase with hall | ⟨before2, p2, after2, hdb2, hpid2, hno2, hall⟩
              · exact absurd hall hex
              · have := huniq before2 p2 after2 hdb2 hpid2 hno2
                subst this
                exact absurd hall hne
          · intro h
            cases hc : castBoolean (body "completed") <;> simp [patchTask, hf, ht, hc] at h
          · intro h
            cases h
          · intro pid2 before2 p2 after2 u _ _ _ _ _ _
            constructor
            · intro b hb
              simp [patchTask, hf, ht, hb, castBoolean]
            · intro e he
              simp [patchTask, hf, ht, he]

/-- C8: setting completed is idempotent: for an existing project id pid, a task
id tid of that project and a boolean b, PATCH /api/projects/pid/tasks/tid with
`{completed: b}` applied a second time gives the same response and the same
store as applying it once. -/
theorem patchTask_idempotent (db : List Project) (pid tid : ObjectId) (b : Bool)
    (body : ReqBody) (p : Project) (hb : body "completed" = .bool b)
    (hp : findById db (.valid pid) = .ok (some p)) (ht : ∃ t ∈ p.tasks, t._id = tid) :
    patchTask (patchTask db (.valid pid) (.valid tid) body).2 (.valid pid) (.valid tid) body =
      patchTask db (.valid pid) (.valid tid) body := by
  have hpid : p._id = pid := findById_some_id hp
  cases htask : tasksId p.tasks (.valid tid) with
  | none =>
    obtain ⟨t, hmem, hid⟩ := ht
    exact absurd hid ((tasksId_none_iff p.tasks tid).1 htask t hmem)
  | some t =>
    have htid : t._id = tid := tasksId_some_id htask
    have h1 : patchTask db (.valid pid) (.valid tid) body =
        ({ status := 200, body := .message "Task updated" },
          save db { p with tasks := setCompleted p.tasks tid (some b) }) := by
      simp [patchTask, hp, htask, hb, castBoolean, htid]
    have hf2 : findById (save db { p with tasks := setCompleted p.tasks tid (some b) })
        (.valid pid) = .ok (some { p with tasks := setCompleted p.tasks tid (some b) }) :=
      findById_save db pid p _ hp hpid
    have ht2 := tasksId_setCompleted p.tasks tid t (some b) htask
    rw [h1]
    simp [patchTask, hf2, ht2, hb, castBoolean, htid, setCompleted_setCompleted, save_save]

theorem patchTask_idempotent_witness :
    patchTask (patchTask [⟨3, some (.lit "P"), [⟨10, some (.lit "a"), some false⟩]⟩]
      (.valid 3) (.valid 10) (ofFields [("completed", .bool true)])).2
      (.valid 3) (.valid 10) (ofFields [("completed", .bool true)]) =
    patchTask [⟨3, some (.lit "P"), [⟨10, some (.lit "a"), some false⟩]⟩]
      (.valid 3) (.valid 10) (ofFields [("completed", .bool true)]) :=
  patchTask_idempotent _ 3 10 true _ ⟨3, some (.lit "P"), [⟨10, some (.lit "a"), some false⟩]⟩
    rfl rfl ⟨⟨10, some (.lit "a"), some false⟩, by decide, rfl⟩

end Task2

namespace Task2
open Js

/-- C9 (as stated, refuted): POST /api/projects with the empty body is stopped
by the name check of the handler: 400, nothing created. -/
theorem postProjects_empty_body_rejected :
    postProjects [] 1 (ofFields []) =
      ({ status := 400, body := .message "Name required" }, []) :=
  rfl

/-- C9 (amended): POST /api/projects with a body whose name is absent, null or
empty (the empty body among them) is answered 400 and creates nothing; with a
truthy name the handler answers 201 with a new Project whose task list is
empty, and persists it. -/
theorem postProjects_name_check (db : List Project) (newId : ObjectId) (body : ReqBody) :
    (missing (body "name") →
      postProjects db newId body =
        ({ status := 400, body := .message "Name required" }, db)) ∧
    (truthy (body "name") = true →
      postProjects db newId body =
        ({ status := 201, body := .project ⟨newId, castString (body "name"), []⟩ },
          db ++ [⟨newId, castString (body "name"), []⟩])) := by
  constructor
  · intro h
    simp [postProjects, truthy_of_missing h]
  · intro h
    simp [postProjects, h, insert]

/-- A task id that matches nothing in an existing project makes the
dereference `project.tasks.id(taskId).remove()` throw: DELETE answers 500 and
the store is unchanged. -/
theorem deleteTask_missing_task (subdocRemove : Bool) (db : List Project)
    (pid tid : ObjectId) (p : Project)
    (hp : findById db (.valid pid) = .ok (some p)) (ht : ∀ t ∈ p.tasks, t._id ≠ tid) :
    deleteTask subdocRemove db (.valid pid) (.valid tid) =
      ({ status := 500, body := .message "Failed to delete task" }, db) := by
  simp [deleteTask, hp, (tasksId_none_iff p.tasks tid).2 ht]

/-- DELETE of a task answers 404 exactly when no Project has the id. -/
theorem deleteTask_not_found_iff (subdocRemove : Bool) (db : List Project)
    (pid tid : ObjectId) :
    (deleteTask subdocRemove db (.valid pid) (.valid tid)).1.status = 404 ↔
      ∀ p ∈ db, p._id ≠ pid := by
  cases hf : findById db (.valid pid) with
  | error e => simp [findById] at hf
  | ok op =>
    cases op with
    | none =>
      have hn := (findById_none_iff db pid).1 hf
      simpa [deleteTask, hf] using hn
    | some p =>
      have hex : ¬ ∀ q ∈ db, q._id ≠ pid := by
        intro hall
        rw [(findById_none_iff db pid).2 hall] at hf
        cases hf
      cases ht : tasksId p.tasks (.valid tid) <;> cases subdocRemove <;>
        simp [deleteTask, hf, ht] <;> simpa using hex

/-- Where Mongoose has the subdocument `remove()`, DELETE of a task that is
there answers 200 and saves the project without the tasks of that id, the others
kept in their order. -/
theorem deleteTask_existing_task (db : List Project) (pid tid : ObjectId) (p : Project)
    (t : Task) (hp : findById db (.valid pid) = .ok (some p))
    (ht : tasksId p.tasks (.valid tid) = some t) :
    deleteTask true db (.valid pid) (.valid tid) =
      ({ status := 200, body := .message "Task deleted" },
        save db { p with tasks := p.tasks.filter fun u => decide (u._id ≠ tid) }) := by
  simp [deleteTask, hp, ht, removeTask, tasksId_some_id ht]

/-- C10 (the code at the failing input): the project with id 3 exists and has
no task with id 11; DELETE /api/projects/3/tasks/11 is answered 500, with and
without the subdocument `remove()`, where the claim expects the 200 success
message. -/
theorem deleteTask_missing_task_500 :
    deleteTask true [⟨3, some (.lit "P"), [⟨10, some (.lit "a"), some false⟩]⟩]
        (.valid 3) (.valid 11) =
      ({ status := 500, body := .message "Failed to delete task" },
        [⟨3, some (.lit "P"), [⟨10, some (.lit "a"), some false⟩]⟩]) ∧
    deleteTask false [⟨3, some (.lit "P"), [⟨10, some (.lit "a"), some false⟩]⟩]
        (.valid 3) (.valid 11) =
      ({ status := 500, body := .message "Failed to delete task" },
        [⟨3, some (.lit "P"), [⟨10, some (.lit "a"), some false⟩]⟩]) :=
  ⟨rfl, rfl⟩

end Task2

/-! ### Adding a task and the frame of the task update -/

namespace Task2
open Js

/-- A save replaces the first project with the id of the saved one. -/
theorem save_split (before after : List Project) (p q : Project) (pid : ObjectId)
    (hp : p._id = pid) (hq : q._id = pid) (hno : ∀ a ∈ before, a._id ≠ pid) :
    save (before ++ p :: after) q = before ++ q :: after := by
  induction before with
  | nil => simp [save, hp, hq]
  | cons d ds ih =>
    have hd : ¬ d._id = q._id := by rw [hq]; exact hno d (List.mem_cons_self _ _)
    have ih2 := ih (fun a ha => hno a (List.mem_cons_of_mem _ ha))
    simp [save, hd, ih2]

/-- C11: for an existing project id pid (p the Project of the store with that
id, the first carrying it) and a non-empty title, POST /api/projects/pid/tasks
answers 201 with the updated Project: its task list is the previous task list
followed by one new Task with that title and completed false, whatever else the
body carries; the id and name of the project and every other Project of the
store are unchanged. -/
theorem postTask_appends (before after : List Project) (p : Project) (pid newId : ObjectId)
    (body : ReqBody) (title : String) (htitle : body "title" = .str title) (hne : title ≠ "")
    (hpid : p._id = pid) (hno : ∀ a ∈ before, a._id ≠ pid) :
    postTask (before ++ p :: after) (.valid pid) newId body =
      ({ status := 201,
         body := .project ⟨pid, p.name,
           p.tasks ++ [⟨newId, some (.lit title), some false⟩]⟩ },
        before ++ ⟨pid, p.name, p.tasks ++ [⟨newId, some (.lit title), some false⟩]⟩
          :: after) := by
  have hp := findById_of_split before after p pid hpid hno
  have hs := save_split before after p
    ⟨pid, p.name, p.tasks ++ [⟨newId, some (.lit title), some false⟩]⟩ pid hpid rfl hno
  simp [postTask, htitle, truthy, hne, hp, castString, hpid, hs]

theorem postTask_appends_witness :
    postTask [⟨4, none, []⟩, ⟨3, some (.lit "P"), [⟨10, some (.lit "a"), some true⟩]⟩,
        ⟨5, some (.lit "Q"), []⟩]
      (.valid 3) 11 (ofFields [("title", .str "write"), ("completed", .bool true)]) =
      ({ status := 201,
         body := .project ⟨3, some (.lit "P"),
           [⟨10, some (.lit "a"), some true⟩, ⟨11, some (.lit "write"), some false⟩]⟩ },
        [⟨4, none, []⟩,
          ⟨3, some (.lit "P"),
            [⟨10, some (.lit "a"), some true⟩, ⟨11, some (.lit "write"), some false⟩]⟩,
          ⟨5, some (.lit "Q"), []⟩]) :=
  postTask_appends [⟨4, none, []⟩] [⟨5, some (.lit "Q"), []⟩]
    ⟨3, some (.lit "P"), [⟨10, some (.lit "a"), some true⟩]⟩ 3 11
    (ofFields [("title", .str "write"), ("completed", .bool true)]) "write"
    rfl (by decide) rfl (by decide)

/-- C13: a successful PATCH /api/projects/pid/tasks/tid with `{completed: b}`
changes only the completed flag of the matched Task: that task keeps its id and
title and gets completed = b, the other tasks of the project keep their values
and positions, the project keeps its id and name, and the other Projects of the
store are unchanged. -/
theorem patchTask_frame (db : List Project) (pid tid : ObjectId) (b : Bool) (body : ReqBody)
    (p : Project) (t : Task) (hb : body "completed" = .bool b)
    (hp : findById db (.valid pid) = .ok (some p))
    (ht : tasksId p.tasks (.valid tid) = some t) :
    ∃ before after tbefore tafter,
      db = before ++ p :: after ∧ (∀ a ∈ before, a._id ≠ pid) ∧
      p.tasks = tbefore ++ t :: tafter ∧ (∀ a ∈ tbefore, a._id ≠ tid) ∧
      patchTask db (.valid pid) (.valid tid) body =
        ({ status := 200, body := .message "Task updated" },
          before ++ ⟨p._id, p.name, tbefore ++ ⟨t._id, t.title, some b⟩ :: tafter⟩ :: after) := by
  obtain ⟨before, after, hdb, hno, hsave⟩ := findById_split db pid p hp
  obtain ⟨tbefore, tafter, htasks, htno, hset⟩ := tasksId_split p.tasks tid t ht
  refine ⟨before, after, tbefore, tafter, hdb, hno, htasks, htno, ?_⟩
  have hpid : p._id = pid := findById_some_id hp
  have htid : t._id = tid := tasksId_some_id ht
  have hs := hsave ⟨p._id, p.name, tbefore ++ ⟨t._id, t.title, some b⟩ :: tafter⟩ hpid
  rw [htid] at hs
  simp [patchTask, hb, hp, ht, castBoolean, htid, hset, hs]

theorem patchTask_frame_witness :
    ∃ before after tbefore tafter,
      ([⟨4, none, []⟩, ⟨3, some (.lit "P"),
          [⟨9, none, none⟩, ⟨10, some (.lit "a"), some false⟩]⟩] : List Project)
        = before ++ ⟨3, some (.lit "P"),
          [⟨9, none, none⟩, ⟨10, some (.lit "a"), some false⟩]⟩ :: after ∧
      (∀ a ∈ before, a._id ≠ 3) ∧
      ([⟨9, none, none⟩, ⟨10, some (.lit "a"), some false⟩] : List Task)
        = tbefore ++ ⟨10, some (.lit "a"), some false⟩ :: tafter ∧
      (∀ a ∈ tbefore, a._id ≠ 10) ∧
      patchTask [⟨4, none, []⟩, ⟨3, some (.lit "P"),
          [⟨9, none, none⟩, ⟨10, some (.lit "a"), some false⟩]⟩]
        (.valid 3) (.valid 10) (ofFields [("completed", .bool true)]) =
        ({ status := 200, body := .message "Task updated" },
          before ++ ⟨3, some (.lit "P"),
            tbefore ++ ⟨10, some (.lit "a"), some true⟩ :: tafter⟩ :: after) :=
  patchTask_frame _ 3 10 true _
    ⟨3, some (.lit "P"), [⟨9, none, none⟩, ⟨10, some (.lit "a"), some false⟩]⟩
    ⟨10, some (.lit "a"), some false⟩ rfl rfl rfl

end Task2

/-! ### The cart -/

namespace Task3
open Js

/-- The entry `cart.find` returns splits the cart, and `bumpQty` changes exactly
that element. -/
theorem bumpQty_split (cart : List CartItem) (id : ObjectId) (item : CartItem)
    (h : cart.find? (fun e => decide (e.product._id = id)) = some item) :
    ∃ before after, cart = before ++ item :: after ∧
      (∀ a ∈ before, a.product._id ≠ id) ∧
      bumpQty cart id = before ++ ⟨item.product, item.qty + 1⟩ :: after := by
  induction cart with
  | nil => simp at h
  | cons d ds ih =>
    by_cases hd : d.product._id = id
    · simp only [List.find?, hd, decide_True, Option.some.injEq] at h
      subst h
      exact ⟨[], ds, rfl, fun a ha => absurd ha (List.not_mem_nil _), by simp [bumpQty, hd]⟩
    · simp only [List.find?, hd, decide_False] at h
      obtain ⟨before, after, hcart, hno, hbump⟩ := ih h
      refine ⟨d :: before, after, by rw [hcart]; rfl, ?_, by simp [bumpQty, hd, hbump]⟩
      intro a ha
      rcases List.mem_cons.1 ha with ha | ha
      · rw [ha]; exact hd
      · exact hno a ha

/-- Adding a product whose id is not in the cart appends the entry with qty 1. -/
theorem addToCart_new (cart : List CartItem) (p : Product)
    (h : ∀ e ∈ cart, e.product._id ≠ p._id) : addToCart cart p = cart ++ [⟨p, 1⟩] := by
  have hf : cart.find? (fun e => decide (e.product._id = p._id)) = none := by
    simpa using h
  simp [addToCart, hf]

/-- Adding a product whose id is in the cart increments the first entry with
that id and leaves the rest as it is. -/
theorem addToCart_existing (cart : List CartItem) (p : Product)
    (h : ∃ e ∈ cart, e.product._id = p._id) :
    ∃ before item after, cart = before ++ item :: after ∧ item.product._id = p._id ∧
      (∀ a ∈ before, a.product._id ≠ p._id) ∧
      addToCart cart p = before ++ ⟨item.product, item.qty + 1⟩ :: after := by
  cases hf : cart.find? (fun e => decide (e.product._id = p._id)) with
  | none =>
    obtain ⟨e, he, hid⟩ := h
    have := List.find?_eq_none.1 hf e he
    simp [hid] at this
  | some item =>
    obtain ⟨before, after, hcart, hno, hbump⟩ := bumpQty_split cart p._id item hf
    have hid : item.product._id = p._id := by simpa using List.find?_some hf
    exact ⟨before, item, after, hcart, hid, hno, by simp [addToCart, hf, hbump]⟩

/-- Adding the same product `n + 1` times to the empty cart. -/
theorem addToCart_iterate (p : Product) (n : Nat) :
    (fun cart => addToCart cart p)^[n + 1] [] = [⟨p, n + 1⟩] := by
  induction n with
  | zero => simp [addToCart]
  | succ k ih =>
    rw [Function.iterate_succ_apply', ih]
    simp [addToCart, bumpQty]

end Task3

namespace Task3
open Js

/-- C12: `addToCart(p)` is keyed by the product id.  If an entry of the cart
has the id of p, the cart keeps its length and order, that entry (the first
with the id) gets qty + 1 and the other entries are unchanged; otherwise the
cart is the old cart followed by the new entry with qty 1.  So n additions of
one product to the empty cart give the single entry with qty n. -/
theorem addToCart_keyed (cart : List CartItem) (p : Product) :
    ((∃ e ∈ cart, e.product._id = p._id) →
      ∃ before item after, cart = before ++ item :: after ∧ item.product._id = p._id ∧
        (∀ a ∈ before, a.product._id ≠ p._id) ∧
        addToCart cart p = before ++ ⟨item.product, item.qty + 1⟩ :: after) ∧
    ((∀ e ∈ cart, e.product._id ≠ p._id) → addToCart cart p = cart ++ [⟨p, 1⟩]) ∧
    (∀ n, 0 < n → (fun c => addToCart c p)^[n] [] = [⟨p, n⟩]) := by
  refine ⟨addToCart_existing cart p, addToCart_new cart p, ?_⟩
  intro n hn
  obtain ⟨k, rfl⟩ : ∃ k, n = k + 1 := ⟨n - 1, by omega⟩
  exact addToCart_iterate p k

/-- The ids of the cart are unchanged by `bumpQty`. -/
theorem bumpQty_ids (cart : List CartItem) (id : ObjectId) :
    (bumpQty cart id).map (fun e => e.product._id) = cart.map (fun e => e.product._id) := by
  induction cart with
  | nil => rfl
  | cons d ds ih =>
    by_cases hd : d.product._id = id
    · simp [bumpQty, hd]
    · simp [bumpQty, hd, ih]

theorem bumpQty_qty_pos (cart : List CartItem) (id : ObjectId)
    (h : ∀ e ∈ cart, 1 ≤ e.qty) : ∀ e ∈ bumpQty cart id, 1 ≤ e.qty := by
  induction cart with
  | nil => exact h
  | cons d ds ih =>
    have hds : ∀ e ∈ ds, 1 ≤ e.qty := fun e he => h e (List.mem_cons_of_mem _ he)
    by_cases hd : d.product._id = id
    · intro e he
      simp only [bumpQty, hd, if_true, List.mem_cons] at he
      rcases he with he | he
      · rw [he]; exact Nat.le_add_left 1 d.qty
      · exact hds e he
    · intro e he
      simp only [bumpQty, hd, if_false, List.mem_cons] at he
      rcases he with he | he
      · rw [he]; exact h d (List.mem_cons_self _ _)
      · exact ih hds e he

/-- The invariant of the cart: the ids are pairwise distinct and every qty is at
least 1. -/
theorem cartStep_invariant (cart : List CartItem) (action : CartAction)
    (hid : (cart.map fun e => e.product._id).Nodup) (hq : ∀ e ∈ cart, 1 ≤ e.qty) :
    ((cartStep cart action).map fun e => e.product._id).Nodup ∧
      ∀ e ∈ cartStep cart action, 1 ≤ e.qty := by
  cases action with
  | add p =>
    simp only [cartStep, addToCart]
    cases hf : cart.find? (fun e => decide (e.product._id = p._id)) with
    | some item =>
      exact ⟨by simpa [bumpQty_ids] using hid, bumpQty_qty_pos cart p._id hq⟩
    | none =>
      have hno := List.find?_eq_none.1 hf
      constructor
      · simp only [List.map_append, List.map_cons, List.map_nil]
        refine List.Nodup.append hid (List.nodup_singleton _) ?_
        intro x hx hx2
        obtain ⟨e, he, hxe⟩ := List.mem_map.1 hx
        have hxp : x = p._id := by simpa using hx2
        have := hno e he
        simp [hxe, hxp] at this
      · intro e he
        rcases List.mem_append.1 he with he | he
        · exact hq e he
        · have : e = ⟨p, 1⟩ := by simpa using he
          rw [this]
  | remove i =>
    simp only [cartStep, removeFromCart]
    exact ⟨List.Nodup.sublist ((List.eraseIdx_sublist cart i).map _) hid,
      fun e he => hq e (List.mem_of_mem_eraseIdx he)⟩
  | checkout =>
    simp only [cartStep, checkout]
    split
    · exact ⟨hid, hq⟩
    · exact ⟨List.nodup_nil, fun e he => absurd he (List.not_mem_nil _)⟩

theorem cartRun_invariant (actions : List CartAction) :
    ∀ cart : List CartItem, (cart.map fun e => e.product._id).Nodup →
      (∀ e ∈ cart, 1 ≤ e.qty) →
      ((cartRun cart actions).map fun e => e.product._id).Nodup ∧
        ∀ e ∈ cartRun cart actions, 1 ≤ e.qty := by
  induction actions with
  | nil => intro cart hid hq; exact ⟨hid, hq⟩
  | cons a rest ih =>
    intro cart hid hq
    obtain ⟨h1, h2⟩ := cartStep_invariant cart a hid hq
    exact ih _ h1 h2

/-- C14: from the empty cart, after every sequence of `addToCart`,
`removeFromCart` and checkout clicks no two entries have the same product id
and every qty is at least 1; the cart is empty after every checkout click, the
click on an empty cart showing only the message; and `removeFromCart(i)` with a
valid index deletes exactly the entry at i, the others kept in order. -/
theorem cart_invariant :
    (∀ actions : List CartAction,
      ((cartRun [] actions).map fun e => e.product._id).Nodup ∧
        ∀ e ∈ cartRun [] actions, 1 ≤ e.qty) ∧
    (∀ cart : List CartItem, (checkout cart).2 = []) ∧
    checkout [] = (.emptyMessage, []) ∧
    (∀ (cart : List CartItem) (i : Nat), i < cart.length →
      removeFromCart cart i = cart.take i ++ cart.drop (i + 1) ∧
      (removeFromCart cart i).length + 1 = cart.length) := by
  refine ⟨fun actions => cartRun_invariant actions [] List.nodup_nil
    (fun e he => absurd he (List.not_mem_nil _)), ?_, rfl, ?_⟩
  · intro cart
    unfold checkout
    split
    · rename_i h
      exact List.length_eq_zero.1 h
    · rfl
  · intro cart i hi
    refine ⟨List.eraseIdx_eq_take_drop_succ cart i, ?_⟩
    simp only [removeFromCart]
    rw [List.length_eraseIdx]
    simp only [hi, if_true]
    omega

end Task3

namespace Task3
open Js

theorem foldl_total (cart : List CartItem) (start : ℚ) :
    cart.foldl (fun total item => total + priceOf item.product * item.qty) start =
      start + (cart.map fun item => priceOf item.product * (item.qty : ℚ)).sum := by
  induction cart generalizing start with
  | nil => simp
  | cons d ds ih => simp [List.foldl, ih, add_assoc]

/-- The total `renderCart` computes is the sum of price times qty. -/
theorem renderCart_eq_sum (cart : List CartItem) :
    renderCart cart = (cart.map fun item => priceOf item.product * (item.qty : ℚ)).sum := by
  unfold renderCart
  split
  · rename_i h
    rw [List.length_eq_zero.1 h]
    rfl
  · rw [foldl_total, zero_add]

/-- What `addToCart` adds to the total: the price held by the entry it
increments, the price of the product when the entry is new. -/
theorem renderCart_addToCart (cart : List CartItem) (p : Product) :
    renderCart (addToCart cart p) = renderCart cart +
      (match cart.find? fun e => decide (e.product._id = p._id) with
        | some item => priceOf item.product
        | none => priceOf p) := by
  cases hf : cart.find? (fun e => decide (e.product._id = p._id)) with
  | none =>
    simp only [addToCart, hf, renderCart_eq_sum]
    simp
  | some item =>
    obtain ⟨before, after, hcart, _, hbump⟩ := bumpQty_split cart p._id item hf
    simp only [addToCart, hf, renderCart_eq_sum, hbump]
    rw [hcart]
    simp only [List.map_append, List.map_cons, List.sum_append, List.sum_cons]
    push_cast
    ring

theorem renderCart_removeFromCart (cart : List CartItem) (i : Nat) (h : i < cart.length) :
    renderCart (removeFromCart cart i) =
      renderCart cart - priceOf cart[i].product * (cart[i].qty : ℚ) := by
  simp only [renderCart_eq_sum, removeFromCart]
  induction cart generalizing i with
  | nil => simp at h
  | cons d ds ih =>
    cases i with
    | zero => simp
    | succ k =>
      have hk : k < ds.length := by simpa using h
      simp only [List.eraseIdx_cons_succ, List.map_cons, List.sum_cons, List.getElem_cons_succ]
      rw [ih k hk]
      ring

/-- The product objects of the cart are unchanged by `bumpQty`. -/
theorem bumpQty_products (cart : List CartItem) (id : ObjectId) :
    (bumpQty cart id).map (fun e => e.product) = cart.map (fun e => e.product) := by
  induction cart with
  | nil => rfl
  | cons d ds ih =>
    by_cases hd : d.product._id = id
    · simp [bumpQty, hd]
    · simp [bumpQty, hd, ih]

/-- An action keeps the product objects of the cart among those the page
fetched, when the product it adds is one of them. -/
theorem cartStep_products (fetched : List Product) (cart : List CartItem)
    (action : CartAction) (ha : ∀ q, action = .add q → q ∈ fetched)
    (h : ∀ e ∈ cart, e.product ∈ fetched) :
    ∀ e ∈ cartStep cart action, e.product ∈ fetched := by
  cases action with
  | add p =>
    simp only [cartStep, addToCart]
    cases hf : cart.find? (fun e => decide (e.product._id = p._id)) with
    | some item =>
      intro e he
      have hm : e.product ∈ (bumpQty cart p._id).map (fun x => x.product) :=
        List.mem_map.2 ⟨e, he, rfl⟩
      rw [bumpQty_products] at hm
      obtain ⟨e0, he0, heq⟩ := List.mem_map.1 hm
      rw [← heq]
      exact h e0 he0
    | none =>
      intro e he
      rcases List.mem_append.1 he with he | he
      · exact h e he
      · have : e = ⟨p, 1⟩ := by simpa using he
        rw [this]
        exact ha p rfl
  | remove i =>
    intro e he
    exact h e (List.mem_of_mem_eraseIdx he)
  | checkout =>
    simp only [cartStep, checkout]
    split
    · exact h
    · intro e he
      exact absurd he (List.not_mem_nil _)

theorem cartRun_products (fetched : List Product) (actions : List CartAction) :
    ∀ cart : List CartItem, (∀ q, CartAction.add q ∈ actions → q ∈ fetched) →
      (∀ e ∈ cart, e.product ∈ fetched) →
      ∀ e ∈ cartRun cart actions, e.product ∈ fetched := by
  induction actions with
  | nil => intro cart _ h; exact h
  | cons a rest ih =>
    intro cart ha h
    exact ih _ (fun q hq => ha q (List.mem_cons_of_mem _ hq))
      (cartStep_products fetched cart a
        (fun q hq => ha q (by rw [hq]; exact List.mem_cons_self _ _)) h)

/-- On a cart the page can be in, `addToCart(p)` raises the total by the price
of p: the products come from GET /api/products, where an id names one
document. -/
theorem renderCart_addToCart_fetched (fetched : List Product) (actions : List CartAction)
    (p : Product) (hids : (fetched.map fun q => q._id).Nodup)
    (hadd : ∀ q, CartAction.add q ∈ actions → q ∈ fetched) (hp : p ∈ fetched) :
    renderCart (addToCart (cartRun [] actions) p) =
      renderCart (cartRun [] actions) + priceOf p := by
  rw [renderCart_addToCart]
  cases hf : (cartRun [] actions).find? (fun e => decide (e.product._id = p._id)) with
  | none => rfl
  | some item =>
    have hid : item.product._id = p._id := by simpa using List.find?_some hf
    have hmem : item.product ∈ fetched :=
      cartRun_products fetched actions [] hadd
        (fun e he => absurd he (List.not_mem_nil _)) item (List.mem_of_find?_eq_some hf)
    have heq : item.product = p := List.inj_on_of_nodup_map hids hmem hp hid
    simp only [heq]

/-- A direct call of `addToCart` with a second product object of an id already
in the cart, at another price, raises the total by the price the entry holds:
the reason why the add clause of the total is stated on the carts of the page. -/
theorem addToCart_total_other_price :
    renderCart [⟨⟨1, some (.lit "T"), some (.lit "D"), some 10, some (.lit "u")⟩, 1⟩] = 10 ∧
    renderCart (addToCart [⟨⟨1, some (.lit "T"), some (.lit "D"), some 10, some (.lit "u")⟩, 1⟩]
      ⟨1, some (.lit "T"), some (.lit "D"), some 20, some (.lit "u")⟩) = 20 ∧
    renderCart (addToCart [⟨⟨1, some (.lit "T"), some (.lit "D"), some 10, some (.lit "u")⟩, 1⟩]
      ⟨1, some (.lit "T"), some (.lit "D"), some 20, some (.lit "u")⟩) ≠
      renderCart [⟨⟨1, some (.lit "T"), some (.lit "D"), some 10, some (.lit "u")⟩, 1⟩] +
        priceOf ⟨1, some (.lit "T"), some (.lit "D"), some 20, some (.lit "u")⟩ := by
  refine ⟨?_, ?_, ?_⟩ <;>
    norm_num [renderCart_eq_sum, addToCart, bumpQty, priceOf]

/-- C15: for every cart the total `renderCart` computes, prices taken as exact
rationals, is the sum over the entries of price times qty, and 0 for the empty
cart; `removeFromCart(i)` lowers it by price times qty of the removed entry;
and on every cart of the page (reached from the empty cart by adding products
fetched from GET /api/products, removing and checking out, an id naming one
product) `addToCart(p)` raises it by exactly the price of p.  On any cart at
all `addToCart(p)` raises it by the price held by the entry it increments. -/
theorem renderCart_total :
    (∀ cart : List CartItem,
      renderCart cart = (cart.map fun item => priceOf item.product * (item.qty : ℚ)).sum) ∧
    renderCart [] = 0 ∧
    (∀ (fetched : List Product) (actions : List CartAction) (p : Product),
      (fetched.map fun q => q._id).Nodup →
      (∀ q, CartAction.add q ∈ actions → q ∈ fetched) → p ∈ fetched →
      renderCart (addToCart (cartRun [] actions) p) =
        renderCart (cartRun [] actions) + priceOf p) ∧
    (∀ (cart : List CartItem) (p : Product),
      renderCart (addToCart cart p) = renderCart cart +
        (match cart.find? fun e => decide (e.product._id = p._id) with
          | some item => priceOf item.product
          | none => priceOf p)) ∧
    (∀ (cart : List CartItem) (p : Product),
      (∀ e ∈ cart, e.product._id = p._id → priceOf e.product = priceOf p) →
      renderCart (addToCart cart p) = renderCart cart + priceOf p) ∧
    (∀ (cart : List CartItem) (i : Nat) (h : i < cart.length),
      renderCart (removeFromCart cart i) =
        renderCart cart - priceOf cart[i].product * (cart[i].qty : ℚ)) := by
  refine ⟨renderCart_eq_sum, rfl, renderCart_addToCart_fetched, renderCart_addToCart, ?_,
    renderCart_removeFromCart⟩
  intro cart p hkey
  rw [renderCart_addToCart]
  cases hf : cart.find? (fun e => decide (e.product._id = p._id)) with
  | none => rfl
  | some item =>
    have hid : item.product._id = p._id := by simpa using List.find?_some hf
    simp only [hkey item (List.mem_of_find?_eq_some hf) hid]

/-- The add clause at work: two clicks on the product with id 1 at price 3/2
and one on the product with id 2 at price 4 give the totals 3/2, 3 and 7. -/
theorem renderCart_total_example :
    renderCart (cartRun [] [.add ⟨1, some (.lit "T"), some (.lit "D"), some (3 / 2),
      some (.lit "u")⟩]) = 3 / 2 ∧
    renderCart (cartRun [] [.add ⟨1, some (.lit "T"), some (.lit "D"), some (3 / 2),
        some (.lit "u")⟩,
      .add ⟨1, some (.lit "T"), some (.lit "D"), some (3 / 2), some (.lit "u")⟩]) = 3 ∧
    renderCart (cartRun [] [.add ⟨1, some (.lit "T"), some (.lit "D"), some (3 / 2),
        some (.lit "u")⟩,
      .add ⟨1, some (.lit "T"), some (.lit "D"), some (3 / 2), some (.lit "u")⟩,
      .add ⟨2, some (.lit "S"), some (.lit "E"), some 4, some (.lit "v")⟩]) = 7 := by
  refine ⟨?_, ?_, ?_⟩ <;>
    norm_num [renderCart_eq_sum, cartRun, cartStep, addToCart, bumpQty, priceOf]

end Task3
